import Mathlib

/-!
Shallow embedding of `domain_admin/utils/cert_util.py` (cert_util module):
the target parser `parse_domain_with_port`, the TLS context factory
`create_ssl_context` and fetcher `get_domain_cert`, the normalizers
`_tuple_to_dict`, `_name_convert`, `_parse_time`, and the pipeline
`get_cert_info`.

Python strings are modelled as `List Char` (ASCII fragment), Python dicts
built by the module as insertion-ordered association lists, fallible code
as `Except PyError`.
-/

set_option autoImplicit false

deriving instance DecidableEq for Except

namespace CertUtil

/-- Python exception kinds raised (directly or by the libraries used) in
`cert_util.py`.  `parserError` stands for `dateutil.parser.ParserError`,
`sslCertVerificationError` for `ssl.SSLCertVerificationError`; the socket
level errors are collapsed into `oserror`. -/
inductive PyError where
  | valueError
  | attributeError
  | indexError
  | parserError
  | overflowError
  | sslCertVerificationError
  | oserror
  deriving DecidableEq, Repr

/-- ASCII whitespace accepted by Python `int(str)` / `str.strip`. -/
def pyIsSpace (c : Char) : Bool :=
  c = ' ' || c = '\t' || c = '\n' || c = '\r' || c = '\x0b' || c = '\x0c'

/-- Strip leading and trailing whitespace, as Python `int` does before
parsing the digits of its string argument. -/
def stripWs (s : List Char) : List Char :=
  ((s.dropWhile pyIsSpace).reverse.dropWhile pyIsSpace).reverse

/-- Decimal value of an ASCII digit character. -/
def digitVal (c : Char) : Nat := c.toNat - 48

/-- Continuation of Python's decimal-literal scan: digits, with single
underscores allowed only between two digits. `acc` is the value of the
digits already consumed. -/
def pyDigitsAux : Nat → List Char → Option Nat
  | acc, [] => some acc
  | acc, c :: cs =>
    if c = '_' then
      match cs with
      | [] => none
      | c2 :: cs2 => if c2.isDigit then pyDigitsAux (acc * 10 + digitVal c2) cs2 else none
    else if c.isDigit then pyDigitsAux (acc * 10 + digitVal c) cs else none

/-- Python decimal-literal body: nonempty, starts with a digit, underscores
only between digits. -/
def pyDigitsStart : List Char → Option Nat
  | [] => none
  | c :: cs => if c.isDigit then pyDigitsAux (digitVal c) cs else none

/-- Model of CPython `int(s)` on ASCII strings: optional surrounding
whitespace, optional single sign, then a decimal literal; `none` models the
`ValueError` raised on malformed input. -/
def pyInt (s : List Char) : Option Int :=
  match stripWs s with
  | '+' :: rest => (pyDigitsStart rest).map (fun n => (n : Int))
  | '-' :: rest => (pyDigitsStart rest).map (fun n => -(n : Int))
  | rest => (pyDigitsStart rest).map (fun n => (n : Int))

/-- Model of Python `s.split(c)` for a single-character separator:
`"".split(c) = [""]`, and every occurrence of `c` separates fields. -/
def splitOnChar (c : Char) : List Char → List (List Char)
  | [] => [[]]
  | x :: xs =>
    match splitOnChar c xs with
    | [] => [[]]
    | h :: t => if x = c then [] :: h :: t else (x :: h) :: t

/-- `SSL_DEFAULT_PORT = 443` from cert_util.py. -/
def SSL_DEFAULT_PORT : Int := 443

/-- Result of `parse_domain_with_port`: the dict with keys `domain` and
`port`. -/
structure Target where
  domain : List Char
  port : Int
  deriving DecidableEq, Repr

/-- `parse_domain_with_port` from cert_util.py.  If the input contains a
colon it is split on `:` and unpacked into exactly two parts (a
`ValueError` escapes when the split has more than two parts), and the port
part is converted with `int(...)` (a `ValueError` escapes when it is not a
Python integer literal).  Otherwise the domain is the whole input and the
port is 443. -/
def parse_domain_with_port (domain_with_port : List Char) : Except PyError Target :=
  if domain_with_port.contains ':' then
    match splitOnChar ':' domain_with_port with
    | [d, p] =>
      match pyInt p with
      | some n => .ok ⟨d, n⟩
      | none => .error .valueError
    | _ => .error .valueError
  else
    .ok ⟨domain_with_port, SSL_DEFAULT_PORT⟩

/-! ### Python dict model

The dicts built in cert_util.py are modelled as insertion-ordered
association lists without duplicate keys: `d[k] = v` updates the value in
place when `k` is present and appends otherwise, exactly as CPython dicts
behave (iteration order is insertion order). -/

/-- `d[k] = v` on a Python dict. -/
def dictInsert (d : List (String × String)) (k v : String) : List (String × String) :=
  if d.any (fun p => p.1 = k) then
    d.map (fun p => if p.1 = k then (k, v) else p)
  else
    d ++ [(k, v)]

/-- `d.get(k)` on a Python dict: the value under `k`, if present. -/
def dictFind (d : List (String × String)) (k : String) : Option String :=
  (d.find? (fun p => p.1 = k)).map Prod.snd

/-- `d.get(k, dflt)` on a Python dict. -/
def dictGet (d : List (String × String)) (k dflt : String) : String :=
  (dictFind d k).getD dflt

/-- `list(d.keys())` on a Python dict. -/
def dictKeys (d : List (String × String)) : List String :=
  d.map Prod.fst

/-- `_tuple_to_dict` from cert_util.py.  Each RDN group `item` of the
certificate tuple contributes `item[0][0] -> item[0][1]`, i.e. the first
pair of the group; `item[0]` raises `IndexError` when the group is empty. -/
def _tuple_to_dict (cert_tuple : List (List (String × String))) :
    Except PyError (List (String × String)) :=
  cert_tuple.foldlM
    (fun data item =>
      match item with
      | [] => .error .indexError
      | p :: _ => .ok (dictInsert data p.1 p.2))
    []

/-- The fixed short-code to long-name table of `_name_convert`, in the
insertion order of the Python dict literal. -/
def name_map : List (String × String) :=
  [("C", "countryName"),
   ("CN", "commonName"),
   ("O", "organizationName"),
   ("OU", "organizationalUnitName"),
   ("L", "localityName"),
   ("ST", "stateOrProvinceName")]

/-- `_name_convert` from cert_util.py: for each entry of `name_map` (in
order), look the long name up in `data` defaulting to the empty string, and
store the result under the short code. -/
def _name_convert (data : List (String × String)) : List (String × String) :=
  name_map.foldl (fun dct kv => dictInsert dct kv.1 (dictGet data kv.2 "")) []

/-! ### Datetime model

Model of the `datetime` values flowing through `_parse_time`:
`dateutil.parser.parse` on the certificate timestamp family
`"Mon D HH:MM:SS YYYY GMT"`, `datetime.astimezone()` (conversion to the
local system timezone, given here as an explicit offset in minutes east of
UTC), and `strftime('%Y-%m-%d %H:%M:%S')`.  Civil/epoch conversion uses
the standard proleptic-Gregorian algorithms. -/

/-- A Python `datetime`: civil fields plus an optional UTC offset in
minutes (`none` models a naive datetime). -/
structure PyDatetime where
  year : Int
  month : Int
  day : Int
  hour : Int
  minute : Int
  second : Int
  tzOffset : Option Int
  deriving DecidableEq, Repr

/-- Days since 1970-01-01 to civil `(year, month, day)`, proleptic
Gregorian. -/
def civilFromDays (z0 : Int) : Int × Int × Int :=
  let z := z0 + 719468
  let era := z / 146097
  let doe := z - era * 146097
  let yoe := (doe - doe / 1460 + doe / 36524 - doe / 146096) / 365
  let y := yoe + era * 400
  let doy := doe - (365 * yoe + yoe / 4 - yoe / 100)
  let mp := (5 * doy + 2) / 153
  let d := doy - (153 * mp + 2) / 5 + 1
  let m := mp + (if mp < 10 then 3 else -9)
  (y + (if m ≤ 2 then 1 else 0), m, d)

/-- Civil `(year, month, day)` to days since 1970-01-01, proleptic
Gregorian. -/
def daysFromCivil (y m d : Int) : Int :=
  let y2 := y - (if m ≤ 2 then 1 else 0)
  let era := y2 / 400
  let yoe := y2 - era * 400
  let doy := (153 * (m + (if m > 2 then -3 else 9)) + 2) / 5 + d - 1
  let doe := yoe * 365 + yoe / 4 - yoe / 100 + doy
  era * 146097 + doe - 719468

/-- Naive datetime for an epoch-second count (UTC fields, no tz). -/
def civilFromEpoch (e : Int) : PyDatetime :=
  ⟨(civilFromDays (e / 86400)).1,
   (civilFromDays (e / 86400)).2.1,
   (civilFromDays (e / 86400)).2.2,
   (e % 86400) / 3600,
   ((e % 86400) % 3600) / 60,
   (e % 86400) % 60, none⟩

/-- Epoch seconds of the wall-clock fields of a datetime (ignoring its
timezone tag). -/
def epochOfCivil (dt : PyDatetime) : Int :=
  86400 * daysFromCivil dt.year dt.month dt.day + 3600 * dt.hour + 60 * dt.minute + dt.second

/-- The UTC instant (epoch seconds) denoted by an aware datetime; `none`
for a naive one. -/
def utcEpoch (dt : PyDatetime) : Option Int :=
  dt.tzOffset.map (fun off => epochOfCivil dt - off * 60)

/-- Epoch seconds of `datetime.min` (0001-01-01 00:00:00), the smallest
representable Python datetime, at second precision. -/
def datetimeMinEpoch : Int := 86400 * daysFromCivil 1 1 1

/-- Epoch seconds of `datetime.max` (9999-12-31 23:59:59.999999) at
second precision. -/
def datetimeMaxEpoch : Int := 86400 * daysFromCivil 9999 12 31 + 86399

/-- `datetime.astimezone()` with the local system timezone at
`localOffset` minutes east of UTC: an aware datetime is converted to the
equivalent local wall clock; a naive one is assumed to already be local
time and is just tagged (CPython >= 3.6 behavior).  As in CPython, the
conversion raises `OverflowError` when the UTC intermediate
(`self - self.utcoffset()`) or the local result falls outside
`[datetime.min, datetime.max]` — e.g. a year-9999 timestamp shifted east,
or a year-1 timestamp shifted west. -/
def astimezone (localOffset : Int) (dt : PyDatetime) : Except PyError PyDatetime :=
  match dt.tzOffset with
  | none => .ok { dt with tzOffset := some localOffset }
  | some off =>
    if datetimeMinEpoch ≤ epochOfCivil dt - off * 60 ∧
        epochOfCivil dt - off * 60 ≤ datetimeMaxEpoch ∧
        datetimeMinEpoch ≤ epochOfCivil dt - off * 60 + localOffset * 60 ∧
        epochOfCivil dt - off * 60 + localOffset * 60 ≤ datetimeMaxEpoch then
      .ok { civilFromEpoch (epochOfCivil dt - off * 60 + localOffset * 60) with
        tzOffset := some localOffset }
    else
      .error .overflowError

/-- Two-digit zero-padded decimal rendering (`%m`, `%d`, `%H`, `%M`,
`%S`). -/
def pad2 (n : Int) : List Char :=
  [Nat.digitChar (n.toNat / 10 % 10), Nat.digitChar (n.toNat % 10)]

/-- `%Y` as rendered by the platform C library (glibc, as observed for
this interpreter): the year printed with its minimal number of decimal
digits, NOT zero-padded — year 999 renders as `999`, so only four-digit
years produce the canonical `YYYY` width.  Modelled for the representable
year range 0..9999 (larger years cannot reach `strftime` because
`astimezone` overflows first). -/
def yearChars (y : Int) : List Char :=
  if y < 10 then [Nat.digitChar (y.toNat % 10)]
  else if y < 100 then [Nat.digitChar (y.toNat / 10 % 10), Nat.digitChar (y.toNat % 10)]
  else if y < 1000 then
    [Nat.digitChar (y.toNat / 100 % 10), Nat.digitChar (y.toNat / 10 % 10),
     Nat.digitChar (y.toNat % 10)]
  else
    [Nat.digitChar (y.toNat / 1000 % 10), Nat.digitChar (y.toNat / 100 % 10),
     Nat.digitChar (y.toNat / 10 % 10), Nat.digitChar (y.toNat % 10)]

/-- `dt.strftime(DATETIME_FORMAT)` with
`DATETIME_FORMAT = '%Y-%m-%d %H:%M:%S'` from cert_util.py. -/
def strftimeChars (dt : PyDatetime) : List Char :=
  yearChars dt.year ++ '-' :: pad2 dt.month ++ '-' :: pad2 dt.day ++ ' ' :: pad2 dt.hour
    ++ ':' :: pad2 dt.minute ++ ':' :: pad2 dt.second

/-- Recognizer for the canonical rendering shape
`YYYY-MM-DD HH:MM:SS`. -/
def isDatetimeFormat : List Char → Bool
  | [y1, y2, y3, y4, '-', m1, m2, '-', d1, d2, ' ', h1, h2, ':', n1, n2, ':', e1, e2] =>
    y1.isDigit && y2.isDigit && y3.isDigit && y4.isDigit && m1.isDigit && m2.isDigit &&
    d1.isDigit && d2.isDigit && h1.isDigit && h2.isDigit && n1.isDigit && n2.isDigit &&
    e1.isDigit && e2.isDigit
  | _ => false

/-- Plain decimal digit-run accumulator. -/
def natOfDigitsAux : Nat → List Char → Option Nat
  | acc, [] => some acc
  | acc, c :: cs => if c.isDigit then natOfDigitsAux (acc * 10 + digitVal c) cs else none

/-- A nonempty all-digit token's value. -/
def natOfDigits : List Char → Option Nat
  | [] => none
  | s => natOfDigitsAux 0 s

/-- Month abbreviations of the certificate timestamp format. -/
def monthNames : List (List Char × Nat) :=
  [("Jan".data, 1), ("Feb".data, 2), ("Mar".data, 3), ("Apr".data, 4),
   ("May".data, 5), ("Jun".data, 6), ("Jul".data, 7), ("Aug".data, 8),
   ("Sep".data, 9), ("Oct".data, 10), ("Nov".data, 11), ("Dec".data, 12)]

/-- Month number of a month-name token. -/
def monthNum (s : List Char) : Option Nat :=
  (monthNames.find? (fun p => p.1 = s)).map Prod.snd

/-- UTC offset in minutes of a timezone token of the certificate
timestamp format. -/
def zoneOffset (s : List Char) : Option Int :=
  if s = "GMT".data ∨ s = "UTC".data then some 0 else none

/-- Gregorian leap-year test. -/
def isLeapYear (y : Int) : Bool :=
  y % 4 = 0 && (y % 100 ≠ 0 || y % 400 = 0)

/-- Day count of a month. -/
def daysInMonth (m : Nat) (y : Int) : Nat :=
  if m = 2 then (if isLeapYear y then 29 else 28)
  else if m = 4 ∨ m = 6 ∨ m = 9 ∨ m = 11 then 30
  else 31

/-- Model of `dateutil.parser.parse` on the certificate source's native
timestamp family `"Mon D HH:MM:SS YYYY GMT"` (whitespace separated;
single- or two-digit day; explicit zone): returns an aware datetime, or
`none` for anything the parser rejects (modelling
`dateutil.parser.ParserError`). -/
def dateutilParse (s : List Char) : Option PyDatetime :=
  match (splitOnChar ' ' s).filter (fun t => t ≠ []) with
  | [monTok, dayTok, timeTok, yearTok, zoneTok] =>
    match monthNum monTok, natOfDigits dayTok, splitOnChar ':' timeTok, natOfDigits yearTok with
    | some m, some d, [hTok, miTok, secTok], some y => do
      let h ← natOfDigits hTok
      let mi ← natOfDigits miTok
      let sec ← natOfDigits secTok
      let off ← zoneOffset zoneTok
      if 1 ≤ d ∧ d ≤ daysInMonth m (y : Int) ∧ h < 24 ∧ mi < 60 ∧ sec < 60 ∧ 1 ≤ y ∧ y ≤ 9999 then
        some ⟨(y : Int), (m : Int), (d : Int), (h : Int), (mi : Int), (sec : Int), some off⟩
      else none
    | _, _, _, _ => none
  | _ => none

/-- `_parse_time` from cert_util.py:
`parser.parse(time_str).astimezone().strftime(DATETIME_FORMAT)`, with the
local system timezone given as `localOffset` minutes east of UTC.  An
unparseable string propagates the dateutil parser error; a conversion
outside the datetime range propagates `OverflowError`. -/
def _parse_time (localOffset : Int) (time_str : List Char) : Except PyError (List Char) :=
  match dateutilParse time_str with
  | none => .error .parserError
  | some dt =>
    match astimezone localOffset dt with
    | .ok localDt => .ok (strftimeChars localDt)
    | .error e => .error e

/-! ### ssl module model

Model of the parts of CPython's `ssl` module used by `create_ssl_context`
and `get_domain_cert`, following `ssl.py` of CPython 3.11 (the semantics
relevant here are identical on every CPython from 3.7 on):

* `SSLContext(PROTOCOL_TLS_CLIENT)` starts with `verify_mode =
  CERT_REQUIRED` and `check_hostname = True`;
* assigning `check_hostname = True` on a context whose `verify_mode` is
  `CERT_NONE` silently upgrades `verify_mode` to `CERT_REQUIRED`;
* assigning `verify_mode = CERT_NONE` while `check_hostname` is enabled
  raises `ValueError` ("Cannot set verify_mode to CERT_NONE when
  check_hostname is enabled"). -/

/-- `ssl.CERT_NONE` / `ssl.CERT_OPTIONAL` / `ssl.CERT_REQUIRED`. -/
inductive VerifyMode where
  | certNone
  | certOptional
  | certRequired
  deriving DecidableEq, Repr

/-- The verification-relevant state of an `ssl.SSLContext`. -/
structure SSLContext where
  verify_mode : VerifyMode
  check_hostname : Bool
  deriving DecidableEq, Repr

/-- The `check_hostname` property setter of CPython's `_ssl`. -/
def setCheckHostname (ctx : SSLContext) (b : Bool) : SSLContext :=
  if b ∧ ctx.verify_mode = .certNone then ⟨.certRequired, true⟩
  else { ctx with check_hostname := b }

/-- The `verify_mode` property setter of CPython's `_ssl`. -/
def setVerifyMode (ctx : SSLContext) (m : VerifyMode) : Except PyError SSLContext :=
  if m = .certNone ∧ ctx.check_hostname then .error .valueError
  else .ok { ctx with verify_mode := m }

/-- `SSLContext(PROTOCOL_TLS_CLIENT)` defaults. -/
def newTLSClientContext : SSLContext := ⟨.certRequired, true⟩

/-- `ssl._create_unverified_context(check_hostname=...)` per
`ssl.py` (CPython 3.11), with `purpose = SERVER_AUTH` and the default
`cert_reqs = CERT_NONE`: build a `PROTOCOL_TLS_CLIENT` context, assign
`check_hostname`, assign `verify_mode = CERT_NONE`, and re-assign
`check_hostname = True` when requested. -/
def _create_unverified_context (check_hostname : Bool) : Except PyError SSLContext := do
  let ctx := newTLSClientContext
  let ctx := setCheckHostname ctx check_hostname
  let ctx ← setVerifyMode ctx .certNone
  let ctx := if check_hostname then setCheckHostname ctx true else ctx
  return ctx

/-- `ssl.create_default_context()`: a fully verifying client context. -/
def create_default_context : SSLContext := ⟨.certRequired, true⟩

/-- `create_ssl_context` from cert_util.py: try
`ssl._create_unverified_context(check_hostname=True)`, fall back to
`ssl.create_default_context()` only on `AttributeError` (pre-3.4.3
Pythons without `_create_unverified_context`); any other exception
escapes. -/
def create_ssl_context : Except PyError SSLContext :=
  match _create_unverified_context true with
  | .ok ctx => .ok ctx
  | .error .attributeError => .ok create_default_context
  | .error e => .error e

/-- The certificate dict returned by `SSLSocket.getpeercert()`: the fields
cert_util.py reads. -/
structure PyCert where
  issuer : List (List (String × String))
  subject : List (List (String × String))
  notBefore : List Char
  notAfter : List Char

/-- What the remote endpoint presents during the handshake: its
certificate, whether its chain validates against the trust store, and
whether its identity matches the requested server hostname. -/
structure Peer where
  cert : PyCert
  trusted : Bool
  hostnameMatches : Bool

/-- `context.wrap_socket(sock, server_hostname=host)` followed by
`getpeercert()`: with verification enabled an untrusted chain raises
`ssl.SSLCertVerificationError`, with hostname checking enabled so does an
identity mismatch; otherwise the handshake completes and the peer
certificate is returned.  Caveat on the final branch: for a context with
`verify_mode = CERT_NONE` the real `getpeercert()` returns an empty dict
rather than the certificate fields; that branch is unreachable in this
development (`create_ssl_context` always raises before any handshake, see
the C1 theorem), and no theorem below relies on it. -/
def wrapSocketGetpeercert (ctx : SSLContext) (peer : Peer) : Except PyError PyCert :=
  if ctx.verify_mode ≠ .certNone ∧ ¬peer.trusted then .error .sslCertVerificationError
  else if ctx.check_hostname ∧ ¬peer.hostnameMatches then .error .sslCertVerificationError
  else .ok peer.cert

/-- The network environment of one run: which peer (if any) answers a TCP
connection to `(host, port)`, what DNS resolution returns, and the local
system timezone as minutes east of UTC. -/
structure NetEnv where
  peerOf : List Char → Int → Except PyError Peer
  ipOf : List Char → Except PyError (List Char)
  localOffset : Int

/-- `get_domain_cert` from cert_util.py: build the SSL context, open the
connection, perform the handshake, return the peer certificate. -/
def get_domain_cert (env : NetEnv) (host : List Char) (port : Int) : Except PyError PyCert := do
  let context ← create_ssl_context
  let peer ← env.peerOf host port
  wrapSocketGetpeercert context peer

/-- `get_domain_ip` from cert_util.py: `socket.gethostbyname(domain)`. -/
def get_domain_ip (env : NetEnv) (domain : List Char) : Except PyError (List Char) :=
  env.ipOf domain

/-- The dict returned by `get_cert_info`. -/
structure CertInfo where
  domain : List Char
  ip : List Char
  subject : List (String × String)
  issuer : List (String × String)
  start_date : List Char
  expire_date : List Char

/-- `get_cert_info` from cert_util.py, in the source's evaluation order:
parse the target, fetch the certificate, flatten issuer then subject,
resolve the IP, normalize both timestamps, and assemble the result dict
(whose `domain` is the original input, and whose subject/issuer are the
short-code conversions). -/
def get_cert_info (env : NetEnv) (domain_with_port : List Char) : Except PyError CertInfo := do
  let t ← parse_domain_with_port domain_with_port
  let cert ← get_domain_cert env t.domain t.port
  let issuer ← _tuple_to_dict cert.issuer
  let subject ← _tuple_to_dict cert.subject
  let ip ← get_domain_ip env t.domain
  let start_date ← _parse_time env.localOffset cert.notBefore
  let expire_date ← _parse_time env.localOffset cert.notAfter
  return ⟨domain_with_port, ip, _name_convert subject, _name_convert issuer, start_date,
    expire_date⟩

/-- The text left of the first colon of a string. -/
def beforeColon (s : List Char) : List Char := s.takeWhile (fun c => c ≠ ':')

/-- The text right of the first colon of a string. -/
def afterColon (s : List Char) : List Char := (s.dropWhile (fun c => c ≠ ':')).drop 1

/-- Building a Python dict from a pair list by repeated insertion. -/
def buildDict (ps : List (String × String)) : List (String × String) :=
  ps.foldl (fun d p => dictInsert d p.1 p.2) []

/-! ### Lemmas on the target parser -/

theorem splitOnChar_ne_nil (c : Char) (s : List Char) : splitOnChar c s ≠ [] := by
  induction s with
  | nil => simp [splitOnChar]
  | cons x xs ih =>
    simp only [splitOnChar]
    cases h : splitOnChar c xs with
    | nil => simp
    | cons hh tt => by_cases hx : x = c <;> simp [hx]

theorem splitOnChar_eq_single {c : Char} {s x : List Char} :
    splitOnChar c s = [x] ↔ x = s ∧ c ∉ s := by
  induction s generalizing x with
  | nil => simp [splitOnChar, eq_comm]
  | cons a as ih =>
    simp only [splitOnChar]
    cases h : splitOnChar c as with
    | nil => exact absurd h (splitOnChar_ne_nil c as)
    | cons hh tt =>
      by_cases hac : a = c
      · subst hac
        simp [eq_comm]
      · simp only [if_neg hac, List.cons.injEq]
        constructor
        · rintro ⟨rfl, rfl⟩
          have : hh = as ∧ c ∉ as := ih.mp h
          simp [List.mem_cons, this.1, this.2, Ne.symm, hac]
        · rintro ⟨rfl, hmem⟩
          have hnas : c ∉ as := fun hin => hmem (List.mem_cons_of_mem _ hin)
          have : splitOnChar c as = [as] := ih.mpr ⟨rfl, hnas⟩
          rw [h] at this
          injection this with h1 h2
          exact ⟨by rw [h1], h2⟩

theorem splitOnChar_of_mem {s : List Char} (h : ':' ∈ s) :
    splitOnChar ':' s = beforeColon s :: splitOnChar ':' (afterColon s) := by
  induction s with
  | nil => simp at h
  | cons a as ih =>
    by_cases hac : a = ':'
    · subst hac
      cases hsp : splitOnChar ':' as with
      | nil => exact absurd hsp (splitOnChar_ne_nil _ _)
      | cons hh tt =>
        simp [splitOnChar, hsp, beforeColon, afterColon]
    · have h' : ':' ∈ as := by
        rcases List.mem_cons.mp h with h1 | h2
        · exact absurd h1.symm hac
        · exact h2
      have := ih h'
      simp only [splitOnChar, this, beforeColon, afterColon, List.takeWhile, List.dropWhile]
      simp [hac]

theorem mem_dropWhile {α : Type} {p : α → Bool} {c : α} (hc : p c = false) :
    ∀ {l : List α}, c ∈ l → c ∈ l.dropWhile p := by
  intro l
  induction l with
  | nil => simp
  | cons a as ih =>
    intro h
    cases hpa : p a with
    | true =>
      rcases List.mem_cons.mp h with rfl | h2
      · rw [hpa] at hc; cases hc
      · simpa [List.dropWhile, hpa] using ih h2
    | false => simpa [List.dropWhile, hpa] using h

theorem mem_stripWs {c : Char} (hc : pyIsSpace c = false) {s : List Char} (h : c ∈ s) :
    c ∈ stripWs s := by
  unfold stripWs
  have h1 : c ∈ s.dropWhile pyIsSpace := mem_dropWhile hc h
  have h2 : c ∈ (s.dropWhile pyIsSpace).reverse := List.mem_reverse.mpr h1
  have h3 : c ∈ ((s.dropWhile pyIsSpace).reverse).dropWhile pyIsSpace := mem_dropWhile hc h2
  exact List.mem_reverse.mpr h3

theorem pyDigitsAux_colon (acc : Nat) (cs : List Char) (h : ':' ∈ cs) :
    pyDigitsAux acc cs = none := by
  induction acc, cs using pyDigitsAux.induct with
  | case1 acc => simp at h
  | case2 acc => simp [pyDigitsAux]
  | case3 acc c2 cs2 hd ih =>
    simp only [pyDigitsAux, if_pos rfl, if_pos hd]
    rcases List.mem_cons.mp h with h1 | h2
    · simp at h1
    · rcases List.mem_cons.mp h2 with rfl | h3
      · simp at hd
      · exact ih h3
  | case4 acc c2 cs2 hd => simp [pyDigitsAux, hd]
  | case5 acc c cs hc hd ih =>
    rcases List.mem_cons.mp h with rfl | h2
    · simp at hd
    · rw [pyDigitsAux.eq_def]
      simp [hc, hd]
      exact ih h2
  | case6 acc c cs hc hd =>
    rw [pyDigitsAux.eq_def]
    simp [hc, hd]

theorem pyDigitsStart_colon {s : List Char} (h : ':' ∈ s) : pyDigitsStart s = none := by
  cases s with
  | nil => simp at h
  | cons c cs =>
    rcases List.mem_cons.mp h with rfl | h2
    · simp [pyDigitsStart]
    · by_cases hd : c.isDigit
      · simp [pyDigitsStart, hd, pyDigitsAux_colon _ _ h2]
      · simp [pyDigitsStart, hd]

theorem pyInt_colon {s : List Char} (h : ':' ∈ s) : pyInt s = none := by
  have h1 : ':' ∈ stripWs s := mem_stripWs (by decide) h
  unfold pyInt
  cases hst : stripWs s with
  | nil => rw [hst] at h1; simp at h1
  | cons a rest =>
    rw [hst] at h1
    by_cases ha : a = '+'
    · subst ha
      have h2 : ':' ∈ rest := by
        rcases List.mem_cons.mp h1 with h3 | h3
        · cases h3
        · exact h3
      simp [pyDigitsStart_colon h2]
    · by_cases hb : a = '-'
      · subst hb
        have h2 : ':' ∈ rest := by
          rcases List.mem_cons.mp h1 with h3 | h3
          · cases h3
          · exact h3
        simp [ha, pyDigitsStart_colon h2]
      · simp [ha, hb, pyDigitsStart_colon h1]

theorem contains_colon_iff {s : List Char} : s.contains ':' = true ↔ ':' ∈ s := by
  simp [List.contains]

theorem parse_eq_of_no_colon {s : List Char} (h : ':' ∉ s) :
    parse_domain_with_port s = .ok ⟨s, 443⟩ := by
  have hc : ¬s.contains ':' = true := fun hcc => h (contains_colon_iff.mp hcc)
  unfold parse_domain_with_port
  rw [if_neg hc]
  rfl

theorem parse_eq_of_colon {s : List Char} (h : ':' ∈ s) :
    parse_domain_with_port s =
      match pyInt (afterColon s) with
      | some n => .ok ⟨beforeColon s, n⟩
      | none => .error .valueError := by
  have hc : s.contains ':' = true := contains_colon_iff.mpr h
  unfold parse_domain_with_port
  rw [if_pos hc, splitOnChar_of_mem h]
  cases hsp : splitOnChar ':' (afterColon s) with
  | nil => exact absurd hsp (splitOnChar_ne_nil _ _)
  | cons p tl =>
    cases tl with
    | nil =>
      obtain ⟨rfl, _⟩ := splitOnChar_eq_single.mp hsp
      rfl
    | cons q tl2 =>
      have hmem : ':' ∈ afterColon s := by
        by_contra hnot
        have := splitOnChar_eq_single.mpr ⟨rfl, hnot⟩
        rw [hsp] at this
        injection this with _ h2
        cases h2
      rw [pyInt_colon hmem]

/-! ### Claim C1 -/

/-- C1: the claim says `create_ssl_context` yields a context with
certificate-chain verification disabled and `get_domain_cert` still
completes the handshake and returns the peer certificate of every
reachable host, even an untrusted one.  The code does the opposite:
`ssl._create_unverified_context(check_hostname=True)` raises `ValueError`
on CPython (assigning `verify_mode = CERT_NONE` is rejected while
`check_hostname` is enabled), the `except AttributeError` clause does not
catch it, and so `get_domain_cert` fails for every host and port — it
never returns any peer certificate, trusted or not. -/
theorem c1_fetch_fails_for_every_peer (env : NetEnv) (host : List Char) (port : Int) :
    create_ssl_context = .error .valueError ∧
    get_domain_cert env host port = .error .valueError :=
  ⟨rfl, rfl⟩

/-! ### Claim C2 -/

/-- C2: `parse_domain_with_port` on an input without a colon returns the
whole input as domain with port 443; on an input with a colon it returns
a Target exactly when the text right of the colon parses as a Python
integer, in which case the domain is the text left of the colon and the
port is that integer. -/
theorem c2_parse_splits_on_colon (s : List Char) :
    (':' ∉ s → parse_domain_with_port s = .ok ⟨s, 443⟩) ∧
    (':' ∈ s → ∀ t : Target,
      parse_domain_with_port s = .ok t ↔
        t.domain = beforeColon s ∧ pyInt (afterColon s) = some t.port) := by
  constructor
  · exact fun h => parse_eq_of_no_colon h
  · intro h t
    rw [parse_eq_of_colon h]
    cases hint : pyInt (afterColon s) with
    | none => simp
    | some n =>
      cases t with
      | mk d p => simp [Target.mk.injEq, eq_comm]

/-- Witness for C2 at the spec's own examples. -/
theorem c2_witness :
    parse_domain_with_port "host".data = .ok ⟨"host".data, 443⟩ ∧
    parse_domain_with_port "host:8443".data = .ok ⟨beforeColon "host:8443".data, 8443⟩ :=
  ⟨(c2_parse_splits_on_colon "host".data).1 (by decide),
   ((c2_parse_splits_on_colon "host:8443".data).2 (by decide)
     ⟨beforeColon "host:8443".data, 8443⟩).mpr ⟨rfl, by decide⟩⟩

/-! ### Claim C3 -/

/-- C3 counterexample: the claim says the parser raises on every input
with an empty hostname part and on every portText that is not a valid
non-negative integer.  In fact `""` and `":80"` (empty hostname) and
`"host:-5"` (negative portText) all return Targets. -/
theorem c3_counterexample :
    parse_domain_with_port [] = .ok ⟨[], 443⟩ ∧
    parse_domain_with_port ":80".data = .ok ⟨[], 80⟩ ∧
    parse_domain_with_port "host:-5".data = .ok ⟨"host".data, -5⟩ := by
  decide

/-- C3 amended: `parse_domain_with_port` fails (always with `ValueError`)
exactly when the input contains a colon and the text right of the first
colon is not a valid optionally-signed Python integer literal (in
particular whenever a second colon makes the two-element unpack fail); an
empty hostname is accepted, and negative port texts parse. -/
theorem c3_amended_error_iff (s : List Char) :
    parse_domain_with_port s = .error .valueError ↔
      ':' ∈ s ∧ pyInt (afterColon s) = none := by
  by_cases h : ':' ∈ s
  · rw [parse_eq_of_colon h]
    cases hint : pyInt (afterColon s) with
    | none => simp [h]
    | some n => simp [h, hint]
  · rw [parse_eq_of_no_colon h]
    simp [h]

/-! ### Claim C4 -/

/-- C4 counterexample: the claim says every successfully returned port
lies in [1,65535]; in fact `"host:99999"` returns port 99999 and
`"host:0"` returns port 0. -/
theorem c4_counterexample :
    parse_domain_with_port "host:99999".data = .ok ⟨"host".data, 99999⟩ ∧
    parse_domain_with_port "host:0".data = .ok ⟨"host".data, 0⟩ ∧
    ¬((99999 : Int) ≤ 65535) ∧ ¬(1 ≤ (0 : Int)) := by
  decide

/-- C4 amended: a successfully returned port is 443 (when the input has
no colon) or the integer parse of the port text — the parser performs no
range validation whatsoever, so ports outside [1,65535] are returned
as-is. -/
theorem c4_amended_port_unvalidated (s : List Char) (t : Target)
    (h : parse_domain_with_port s = .ok t) :
    (':' ∉ s ∧ t.port = 443) ∨ pyInt (afterColon s) = some t.port := by
  by_cases hc : ':' ∈ s
  · right
    rw [parse_eq_of_colon hc] at h
    cases hint : pyInt (afterColon s) with
    | none => rw [hint] at h; cases h
    | some n =>
      rw [hint] at h
      injection h with h1
      subst h1
      rfl
  · left
    rw [parse_eq_of_no_colon hc] at h
    injection h with h1
    subst h1
    exact ⟨hc, rfl⟩

/-- Witness for C4 at a concrete out-of-range port. -/
theorem c4_witness :
    (':' ∉ "h:99999".data ∧ (⟨"h".data, 99999⟩ : Target).port = 443) ∨
      pyInt (afterColon "h:99999".data) = some (⟨"h".data, 99999⟩ : Target).port :=
  c4_amended_port_unvalidated "h:99999".data ⟨"h".data, 99999⟩ (by decide)

/-! ### Lemmas on the dict model -/

theorem find?_append {α : Type} (p : α → Bool) (l1 l2 : List α) :
    (l1 ++ l2).find? p =
      match l1.find? p with
      | some x => some x
      | none => l2.find? p := by
  induction l1 with
  | nil => simp
  | cons a l ih =>
    cases hpa : p a with
    | true =>
      rw [List.cons_append, List.find?_cons_of_pos _ hpa, List.find?_cons_of_pos _ hpa]
    | false =>
      have hneg : ¬p a = true := by simp [hpa]
      rw [List.cons_append, List.find?_cons_of_neg _ hneg, List.find?_cons_of_neg _ hneg]
      exact ih

theorem find?_map_upd_self (d : List (String × String)) (a b : String)
    (hmem : ∃ p ∈ d, p.1 = a) :
    ((d.map (fun p => if p.1 = a then (a, b) else p)).find? (fun p => p.1 = a)) =
      some (a, b) := by
  induction d with
  | nil => simp at hmem
  | cons hd tl ih =>
    by_cases h1 : hd.1 = a
    · simp [h1]
    · have hmem' : ∃ p ∈ tl, p.1 = a := by
        obtain ⟨p, hp, he⟩ := hmem
        rcases List.mem_cons.mp hp with rfl | hin
        · exact absurd he h1
        · exact ⟨p, hin, he⟩
      simpa [h1] using ih hmem'

theorem find?_pair_cons (hd : String × String) (tl : List (String × String)) (k : String) :
    (hd :: tl).find? (fun p => decide (p.1 = k)) =
      if hd.1 = k then some hd else tl.find? (fun p => decide (p.1 = k)) := by
  by_cases h : hd.1 = k
  · simp [List.find?, h]
  · simp [List.find?, h]

theorem find?_map_upd_ne (d : List (String × String)) (a b k : String) (hk : k ≠ a) :
    ((d.map (fun p => if p.1 = a then (a, b) else p)).find? (fun p => p.1 = k)) =
      d.find? (fun p => p.1 = k) := by
  induction d with
  | nil => rfl
  | cons hd tl ih =>
    simp only [List.map_cons]
    by_cases h1 : hd.1 = a
    · rw [if_pos h1, find?_pair_cons, find?_pair_cons]
      have hak : ¬(a = k) := fun he => hk he.symm
      have hdk : ¬(hd.1 = k) := by rw [h1]; exact hak
      rw [if_neg hak, if_neg hdk]
      exact ih
    · rw [if_neg h1, find?_pair_cons, find?_pair_cons]
      by_cases h2 : hd.1 = k
      · rw [if_pos h2, if_pos h2]
      · rw [if_neg h2, if_neg h2]
        exact ih

theorem dictFind_insert (d : List (String × String)) (a b k : String) :
    dictFind (dictInsert d a b) k = if k = a then some b else dictFind d k := by
  unfold dictInsert dictFind
  by_cases hmem : ∃ p ∈ d, p.1 = a
  · have hany : d.any (fun p => decide (p.1 = a)) = true := by
      obtain ⟨p, hp, he⟩ := hmem
      exact List.any_eq_true.mpr ⟨p, hp, by simp [he]⟩
    rw [if_pos hany]
    by_cases hk : k = a
    · subst hk
      rw [find?_map_upd_self d k b hmem]
      simp
    · rw [find?_map_upd_ne d a b k hk]
      simp [hk]
  · have hany : ¬d.any (fun p => decide (p.1 = a)) = true := by
      intro hc
      obtain ⟨p, hp, he⟩ := List.any_eq_true.mp hc
      exact hmem ⟨p, hp, by simpa using he⟩
    rw [if_neg hany, find?_append]
    by_cases hk : k = a
    · subst hk
      have hnone : d.find? (fun p => decide (p.1 = k)) = none := by
        rw [List.find?_eq_none]
        intro p hp
        simp only [decide_eq_true_eq]
        exact fun he => hmem ⟨p, hp, he⟩
      simp [hnone]
    · have h2 : ¬a = k := fun he => hk he.symm
      cases hf : d.find? (fun p => decide (p.1 = k)) <;> simp [hf, h2, hk]

theorem foldl_insert_find (ps : List (String × String)) (d0 : List (String × String))
    (k : String) :
    dictFind (ps.foldl (fun d p => dictInsert d p.1 p.2) d0) k =
      match ps.reverse.find? (fun p => p.1 = k) with
      | some p => some p.2
      | none => dictFind d0 k := by
  induction ps generalizing d0 with
  | nil => simp
  | cons hd tl ih =>
    simp only [List.foldl_cons, List.reverse_cons]
    rw [ih, find?_append]
    cases htl : tl.reverse.find? (fun p => decide (p.1 = k)) with
    | some p => rfl
    | none =>
      rw [dictFind_insert, find?_pair_cons]
      by_cases hk : k = hd.1
      · rw [if_pos hk, if_pos hk.symm]
      · rw [if_neg hk, if_neg (fun he => hk he.symm)]
        rfl

theorem tupleToDict_aux (ps : List (String × String)) (init : List (String × String)) :
    ((ps.map (fun p => [p])).foldlM
      (fun data item =>
        match item with
        | [] => Except.error PyError.indexError
        | p :: _ => Except.ok (dictInsert data p.1 p.2))
      init : Except PyError (List (String × String))) =
      .ok (ps.foldl (fun d p => dictInsert d p.1 p.2) init) := by
  induction ps generalizing init with
  | nil => rfl
  | cons hd tl ih => simpa [List.foldlM] using ih (dictInsert init hd.1 hd.2)

theorem tupleToDictM_error (gs : List (List (String × String)))
    (init : List (String × String)) (h : ∃ g ∈ gs, g = []) :
    (gs.foldlM
      (fun data item =>
        match item with
        | [] => Except.error PyError.indexError
        | p :: _ => Except.ok (dictInsert data p.1 p.2))
      init : Except PyError (List (String × String))) = .error .indexError := by
  induction gs generalizing init with
  | nil => simp at h
  | cons hd tl ih =>
    cases hd with
    | nil => rfl
    | cons p rest =>
      have h' : ∃ g ∈ tl, g = [] := by
        obtain ⟨g, hg, he⟩ := h
        rcases List.mem_cons.mp hg with rfl | hin
        · cases he
        · exact ⟨g, hin, he⟩
      simpa [List.foldlM] using ih (dictInsert init p.1 p.2) h'

theorem tupleToDictM_ok (gs : List (List (String × String)))
    (init : List (String × String)) (h : ∀ g ∈ gs, g ≠ []) :
    (gs.foldlM
      (fun data item =>
        match item with
        | [] => Except.error PyError.indexError
        | p :: _ => Except.ok (dictInsert data p.1 p.2))
      init : Except PyError (List (String × String))) =
      .ok ((gs.filterMap List.head?).foldl (fun d p => dictInsert d p.1 p.2) init) := by
  induction gs generalizing init with
  | nil => rfl
  | cons hd tl ih =>
    cases hd with
    | nil => exact absurd rfl (h [] (List.mem_cons_self _ _))
    | cons p rest =>
      have h' : ∀ g ∈ tl, g ≠ [] := fun g hg => h g (List.mem_cons_of_mem _ hg)
      simpa [List.foldlM, List.filterMap_cons] using ih (dictInsert init p.1 p.2) h'

theorem dictGet_eq_default {d : List (String × String)} {k : String} {dflt : String}
    (h : dictFind d k = none) : dictGet d k dflt = dflt := by
  rw [dictGet, h]
  rfl

/-- Normal form of `_name_convert`: the six `name_map` entries, in order,
each carrying the defaulted lookup of its long name. -/
theorem name_convert_eq (data : List (String × String)) :
    _name_convert data = name_map.map (fun p => (p.1, dictGet data p.2 "")) := rfl

/-! ### Claim C5 -/

/-- C5: `_name_convert` always produces exactly the six short-code keys
C, CN, O, OU, L, ST in this order; a short code whose long name is absent
from the input maps to the empty string rather than being omitted; and
the spec's example input yields the spec's example output. -/
theorem c5_all_six_keys (data : List (String × String)) :
    dictKeys (_name_convert data) = ["C", "CN", "O", "OU", "L", "ST"] ∧
    (∀ p ∈ name_map, dictFind data p.2 = none →
      dictFind (_name_convert data) p.1 = some "") ∧
    _name_convert [("commonName", "example.com"), ("organizationName", "Example Inc")] =
      [("C", ""), ("CN", "example.com"), ("O", "Example Inc"), ("OU", ""), ("L", ""),
        ("ST", "")] := by
  refine ⟨rfl, ?_, by decide⟩
  intro p hp hnone
  rw [name_convert_eq]
  fin_cases hp <;>
    (simp only [name_map, List.map_cons, List.map_nil]
     rw [dictGet_eq_default hnone]
     rfl)

/-- Witness for C5: on the empty input dict, C is present and empty. -/
theorem c5_witness : dictFind (_name_convert []) "C" = some "" :=
  (c5_all_six_keys []).2.1 ("C", "countryName") (by decide) (by decide)

/-! ### Claim C6 -/

/-- C6: flattening a sequence of one-pair RDN groups is last-write-wins:
whenever a long name occurs in at least two groups, the flat mapping holds
the value of the rightmost group carrying it. -/
theorem c6_last_write_wins (ps : List (String × String)) (k : String)
    (_h : 2 ≤ (ps.filter (fun p => p.1 = k)).length) :
    ∃ d, _tuple_to_dict (ps.map (fun p => [p])) = .ok d ∧
      dictFind d k = (ps.reverse.find? (fun p => p.1 = k)).map Prod.snd := by
  refine ⟨buildDict ps, tupleToDict_aux ps [], ?_⟩
  unfold buildDict
  rw [foldl_insert_find]
  cases hf : ps.reverse.find? (fun p => decide (p.1 = k)) with
  | some p => rfl
  | none => simp [dictFind]

/-- Witness for C6 with a duplicated commonName. -/
theorem c6_witness :
    ∃ d, _tuple_to_dict ([(("commonName" : String), ("a" : String)),
        ("commonName", "b")].map (fun p => [p])) = .ok d ∧
      dictFind d "commonName" =
        (([(("commonName" : String), ("a" : String)),
          ("commonName", "b")].reverse).find? (fun p => p.1 = "commonName")).map Prod.snd :=
  c6_last_write_wins [("commonName", "a"), ("commonName", "b")] "commonName" (by decide)

/-! ### Claim C7 -/

/-- C7 counterexample: the claim says `_tuple_to_dict` never crashes on a
zero-pair group and skips multi-pair groups.  In fact a zero-pair group
raises `IndexError`, and a multi-pair group is not skipped: its first pair
is used. -/
theorem c7_counterexample :
    _tuple_to_dict [[]] = .error .indexError ∧
    _tuple_to_dict [[("a", "1"), ("b", "2")]] = .ok [("a", "1")] := by
  decide

/-- C7 amended: `_tuple_to_dict` raises `IndexError` as soon as any group
has zero pairs; when every group has at least one pair it returns the flat
mapping built from each group's first pair (additional pairs are
ignored, not skipped as whole groups). -/
theorem c7_amended_empty_group_crashes (gs : List (List (String × String))) :
    ((∃ g ∈ gs, g = []) → _tuple_to_dict gs = .error .indexError) ∧
    ((∀ g ∈ gs, g ≠ []) → _tuple_to_dict gs = .ok (buildDict (gs.filterMap List.head?))) :=
  ⟨fun h => tupleToDictM_error gs [] h, fun h => tupleToDictM_ok gs [] h⟩

/-- Witness for C7 (amended): a two-pair group plus a one-pair group. -/
theorem c7_witness :
    _tuple_to_dict [[("a", "1"), ("b", "2")], [("c", "3")]] =
      .ok (buildDict ([[(("a" : String), ("1" : String)), ("b", "2")],
        [("c", "3")]].filterMap List.head?)) :=
  (c7_amended_empty_group_crashes _).2 (by decide)

/-! ### Claim C10 -/

/-- C10: the output of `_name_convert` has exactly the six keys C, CN, O,
OU, L, ST, and depends only on the input's values at the six long names of
`name_map`: inputs agreeing there (e.g. differing only in an
`emailAddress` entry) produce identical outputs. -/
theorem c10_depends_only_on_six_keys (d1 d2 : List (String × String))
    (h : ∀ ln ∈ name_map.map Prod.snd, dictFind d1 ln = dictFind d2 ln) :
    _name_convert d1 = _name_convert d2 ∧
    dictKeys (_name_convert d1) = ["C", "CN", "O", "OU", "L", "ST"] := by
  refine ⟨?_, rfl⟩
  rw [name_convert_eq, name_convert_eq]
  have h1 := h "countryName" (by decide)
  have h2 := h "commonName" (by decide)
  have h3 := h "organizationName" (by decide)
  have h4 := h "organizationalUnitName" (by decide)
  have h5 := h "localityName" (by decide)
  have h6 := h "stateOrProvinceName" (by decide)
  simp [name_map, dictGet, h1, h2, h3, h4, h5, h6]

/-- Witness for C10: an extra emailAddress entry does not influence the
result. -/
theorem c10_witness :
    _name_convert [("emailAddress", "hostmaster")] = _name_convert [] :=
  (c10_depends_only_on_six_keys [("emailAddress", "hostmaster")] [] (by decide)).1

/-! ### Lemmas on the datetime pipeline -/

theorem except_bind_ok {α β : Type} (a : α) (f : α → Except PyError β) :
    (Except.ok a >>= f) = f a := rfl

theorem except_bind_error {α β : Type} (e : PyError) (f : α → Except PyError β) :
    ((Except.error e : Except PyError α) >>= f) = Except.error e := rfl

theorem digitChar_lt10_isDigit : ∀ n : Nat, n < 10 → (Nat.digitChar n).isDigit = true := by
  decide

theorem digitChar_mod10_isDigit (n : Nat) : (Nat.digitChar (n % 10)).isDigit = true :=
  digitChar_lt10_isDigit _ (Nat.mod_lt _ (by decide))

/-- `astimezone` fails only with `OverflowError`. -/
theorem astimezone_error_eq (off : Int) (dt : PyDatetime) (e : PyError)
    (h : astimezone off dt = .error e) : e = .overflowError := by
  unfold astimezone at h
  split at h
  · cases h
  · split at h
    · cases h
    · injection h with h1
      exact h1.symm

/-- On a parseable timestamp, `_parse_time` is the `strftime` rendering of
the `astimezone` conversion (errors propagated). -/
theorem parse_time_of_parseable (off : Int) (s : List Char) (dt : PyDatetime)
    (h : dateutilParse s = some dt) :
    _parse_time off s = (astimezone off dt).map strftimeChars := by
  unfold _parse_time
  rw [h]
  show (match astimezone off dt with
    | .ok localDt => Except.ok (strftimeChars localDt)
    | .error e => (Except.error e : Except PyError (List Char))) =
    (astimezone off dt).map strftimeChars
  cases astimezone off dt <;> rfl

/-- The `strftime` rendering matches `YYYY-MM-DD HH:MM:SS` whenever the
rendered year has four digits. -/
theorem strftimeChars_format_of_year (dt : PyDatetime) (h1 : 1000 ≤ dt.year)
    (_h2 : dt.year ≤ 9999) :
    isDatetimeFormat (strftimeChars dt) = true := by
  have hy1 : ¬dt.year < 10 := by omega
  have hy2 : ¬dt.year < 100 := by omega
  have hy3 : ¬dt.year < 1000 := by omega
  simp only [strftimeChars, yearChars, if_neg hy1, if_neg hy2, if_neg hy3, pad2,
    List.cons_append, List.nil_append]
  simp [isDatetimeFormat, Bool.and_eq_true, digitChar_mod10_isDigit]

/-! ### Claim C8 -/

/-- C8 counterexample: the claim quantifies over every parseable vendor
timestamp string, but two parseable strings break it.
`"Dec 31 23:30:00 9999 GMT"` parses, yet under a UTC+1 local timezone the
conversion leaves Python's datetime range and `_parse_time` raises
`OverflowError` instead of rendering; and `"Jan 1 00:00:00 999 GMT"`
parses and renders, but the C library's unpadded `%Y` emits a three-digit
year, so the output does not match `YYYY-MM-DD HH:MM:SS`. -/
theorem c8_counterexample :
    dateutilParse "Dec 31 23:30:00 9999 GMT".data =
      some ⟨9999, 12, 31, 23, 30, 0, some 0⟩ ∧
    _parse_time 60 "Dec 31 23:30:00 9999 GMT".data = .error .overflowError ∧
    dateutilParse "Jan 1 00:00:00 999 GMT".data = some ⟨999, 1, 1, 0, 0, 0, some 0⟩ ∧
    _parse_time 0 "Jan 1 00:00:00 999 GMT".data = .ok "999-01-01 00:00:00".data ∧
    isDatetimeFormat "999-01-01 00:00:00".data = false := by
  decide

/-- C8 amended: for every parseable vendor timestamp string and every
whole-minute local offset strictly within one day (as CPython requires),
`_parse_time` either fails with the `OverflowError` that
`datetime.astimezone()` raises when the conversion leaves Python's
datetime range, or returns the `strftime` rendering of the local
conversion, and that rendering matches `YYYY-MM-DD HH:MM:SS` whenever the
local year has four digits (1000..9999; smaller years render shorter
under the platform's unpadded `%Y`).  In particular
`"Jan 1 00:00:00 2030 GMT"` parses to the deterministic UTC instant
2030-01-01T00:00:00Z (epoch 1893456000) and, for every such offset,
renders successfully and matches the format. -/
theorem c8_amended_format_or_overflow :
    (∀ (s : List Char) (dt : PyDatetime) (off : Int),
      dateutilParse s = some dt → -1440 < off → off < 1440 →
      _parse_time off s = .error .overflowError ∨
      ∃ localDt, astimezone off dt = .ok localDt ∧
        _parse_time off s = .ok (strftimeChars localDt) ∧
        (1000 ≤ localDt.year → localDt.year ≤ 9999 →
          isDatetimeFormat (strftimeChars localDt) = true)) ∧
    dateutilParse "Jan 1 00:00:00 2030 GMT".data = some ⟨2030, 1, 1, 0, 0, 0, some 0⟩ ∧
    (dateutilParse "Jan 1 00:00:00 2030 GMT".data).bind utcEpoch = some 1893456000 ∧
    (∀ off : Int, -1440 < off → off < 1440 →
      ∃ out, _parse_time off "Jan 1 00:00:00 2030 GMT".data = .ok out ∧
        isDatetimeFormat out = true) := by
  refine ⟨?_, by decide, by decide, ?_⟩
  · intro s dt off hparse _hlo _hhi
    rw [parse_time_of_parseable off s dt hparse]
    cases hast : astimezone off dt with
    | error e =>
      left
      have he := astimezone_error_eq off dt e hast
      subst he
      rfl
    | ok localDt =>
      right
      exact ⟨localDt, rfl, rfl, fun h1 h2 => strftimeChars_format_of_year _ h1 h2⟩
  · intro off hlo hhi
    rw [parse_time_of_parseable off _ _
      (show dateutilParse "Jan 1 00:00:00 2030 GMT".data =
        some ⟨2030, 1, 1, 0, 0, 0, some 0⟩ from by decide)]
    have hmin : datetimeMinEpoch = -62135596800 := by decide
    have hmax : datetimeMaxEpoch = 253402300799 := by decide
    have hep : epochOfCivil ⟨2030, 1, 1, 0, 0, 0, some 0⟩ = 1893456000 := by decide
    have harg : (1893456000 : Int) - 0 * 60 + off * 60 = 1893456000 + off * 60 := by ring
    have hutc : (1893456000 : Int) - 0 * 60 = 1893456000 := by ring
    have hast : astimezone off ⟨2030, 1, 1, 0, 0, 0, some 0⟩ =
        .ok { civilFromEpoch (1893456000 + off * 60) with tzOffset := some off } := by
      simp only [astimezone]
      rw [hep, harg, hutc, if_pos]
      omega
    rw [hast]
    have hyear :
        ({ civilFromEpoch (1893456000 + off * 60) with
          tzOffset := some off } : PyDatetime).year = 2029 ∨
        ({ civilFromEpoch (1893456000 + off * 60) with
          tzOffset := some off } : PyDatetime).year = 2030 := by
      simp only [civilFromEpoch]
      have hdays : (1893456000 + off * 60) / 86400 = 21914 ∨
          (1893456000 + off * 60) / 86400 = 21915 := by omega
      rcases hdays with hd | hd
      · left
        rw [hd, show civilFromDays 21914 = ((2029 : Int), (12 : Int), (31 : Int)) from by decide]
      · right
        rw [hd, show civilFromDays 21915 = ((2030 : Int), (1 : Int), (1 : Int)) from by decide]
    refine ⟨_, rfl, ?_⟩
    rcases hyear with hy | hy
    · exact strftimeChars_format_of_year _ (by rw [hy]; norm_num) (by rw [hy]; norm_num)
    · exact strftimeChars_format_of_year _ (by rw [hy]; norm_num) (by rw [hy]; norm_num)

/-- Witness for C8 (amended) at a concrete westward local timezone. -/
theorem c8_witness :
    (_parse_time (-300) "Jan 1 00:00:00 2030 GMT".data = .error .overflowError ∨
      ∃ localDt, astimezone (-300) ⟨2030, 1, 1, 0, 0, 0, some 0⟩ = .ok localDt ∧
        _parse_time (-300) "Jan 1 00:00:00 2030 GMT".data = .ok (strftimeChars localDt) ∧
        (1000 ≤ localDt.year → localDt.year ≤ 9999 →
          isDatetimeFormat (strftimeChars localDt) = true)) ∧
    ∃ out, _parse_time (-300) "Jan 1 00:00:00 2030 GMT".data = .ok out ∧
      isDatetimeFormat out = true :=
  ⟨c8_amended_format_or_overflow.1 "Jan 1 00:00:00 2030 GMT".data
      ⟨2030, 1, 1, 0, 0, 0, some 0⟩ (-300) (by decide) (by decide) (by decide),
    c8_amended_format_or_overflow.2.2.2 (-300) (by decide) (by decide)⟩

/-! ### Claim C9 -/

/-- C9: a timestamp string the parser cannot parse makes `_parse_time`
fail with the dateutil parser error (the spec's `TimestampParseError`),
and `get_cert_info` consequently returns no partial summary: any
successful run passed through a parsed target, a fetched certificate, and
two parseable timestamps. -/
theorem c9_unparseable_timestamp_aborts :
    (∀ (off : Int) (s : List Char), dateutilParse s = none →
      _parse_time off s = .error .parserError) ∧
    (∀ (env : NetEnv) (s : List Char) (info : CertInfo),
      get_cert_info env s = .ok info →
      ∃ t cert, parse_domain_with_port s = .ok t ∧
        get_domain_cert env t.domain t.port = .ok cert ∧
        dateutilParse cert.notBefore ≠ none ∧ dateutilParse cert.notAfter ≠ none) := by
  constructor
  · intro off s h
    unfold _parse_time
    rw [h]
  · intro env s info h
    unfold get_cert_info at h
    cases h1 : parse_domain_with_port s with
    | error e => rw [h1, except_bind_error] at h; cases h
    | ok t =>
      rw [h1, except_bind_ok] at h
      cases h2 : get_domain_cert env t.domain t.port with
      | error e => rw [h2, except_bind_error] at h; cases h
      | ok cert =>
        rw [h2, except_bind_ok] at h
        cases h3 : _tuple_to_dict cert.issuer with
        | error e => rw [h3, except_bind_error] at h; cases h
        | ok iss =>
          rw [h3, except_bind_ok] at h
          cases h4 : _tuple_to_dict cert.subject with
          | error e => rw [h4, except_bind_error] at h; cases h
          | ok sub =>
            rw [h4, except_bind_ok] at h
            cases h5 : get_domain_ip env t.domain with
            | error e => rw [h5, except_bind_error] at h; cases h
            | ok ip =>
              rw [h5, except_bind_ok] at h
              cases h6 : _parse_time env.localOffset cert.notBefore with
              | error e => rw [h6, except_bind_error] at h; cases h
              | ok sd =>
                rw [h6, except_bind_ok] at h
                cases h7 : _parse_time env.localOffset cert.notAfter with
                | error e => rw [h7, except_bind_error] at h; cases h
                | ok ed =>
                  refine ⟨t, cert, rfl, h2, ?_, ?_⟩
                  · intro hn
                    unfold _parse_time at h6
                    rw [hn] at h6
                    simp at h6
                  · intro hn
                    unfold _parse_time at h7
                    rw [hn] at h7
                    simp at h7

/-- Witness for C9: a concrete unparseable timestamp fails. -/
theorem c9_witness : _parse_time 0 "soon".data = .error .parserError :=
  c9_unparseable_timestamp_aborts.1 0 "soon".data (by decide)

end CertUtil
